import Mathlib

/-!
# Verification of `saleor/graphql/channel/mutations/channel_create.py`

A shallow embedding of the `ChannelCreate` mutation: its input-cleaning
logic (`clean_input`, `clean_expire_orders_after`), its persistence steps
(`_save_m2m`, `post_save_action`) and the surrounding mutation driver,
together with proofs of the behavioural properties stated in the design
notes.

Python values appearing in the cleaned-input dictionary are embedded as
`PyVal`; the dictionary itself as a function from string keys to
`Option PyVal` (`Option.none` = key absent).  A `ValidationError` raised
with a single-key error dict is embedded as a record of the key, message
and error code.  Database effects are embedded as explicit updates of a
`Store` record that also carries the trace of executed effects, so that
temporal ordering properties can be stated about the trace.
-/

namespace ChannelCreate

/-- Error codes used by channel mutations.  `ChannelErrorCode.INVALID.value`
in the source is the string literal below. -/
def ChannelErrorCode.INVALID : String := "invalid"

/-- Embedding of `django.core.exceptions.ValidationError` raised with a
one-key error dictionary: the key (`field`), the message, and the error
code string. -/
structure ValidationError where
  field : String
  message : String
  code : String
deriving DecidableEq, Repr

/-- Embedding of the `OrderSettingsInput` graphene input object as it
arrives in `cleaned_input["order_settings"]`: a dictionary whose optional
fields may be absent.  `Option.none` on a field means the lookup
`order_settings.get(...)` yields Python `None` (the field is absent or was
explicitly `null`); for `expire_orders_after` the outer `Option` records
whether the key is present (`"expire_orders_after" in order_settings`) and
the inner one whether its value is `null` or an integer.  Enum-valued
fields are carried as their string values. -/
structure OrderSettings where
  automatically_confirm_all_new_orders : Option Bool := none
  automatically_fulfill_non_shippable_gift_card : Option Bool := none
  mark_as_paid_strategy : Option String := none
  expire_orders_after : Option (Option Int) := none
  default_transaction_flow_strategy : Option String := none
deriving DecidableEq, Repr

/-- The nested dictionary is empty (false as a Python truth value) iff
every field is absent. -/
def OrderSettings.isEmpty (os : OrderSettings) : Bool :=
  os.automatically_confirm_all_new_orders.isNone &&
  os.automatically_fulfill_non_shippable_gift_card.isNone &&
  os.mark_as_paid_strategy.isNone &&
  os.expire_orders_after.isNone &&
  os.default_transaction_flow_strategy.isNone

/-- Embedding of the Python values stored in the `cleaned_input`
dictionary.  `vIdList` stands for a list of resolved model objects
(identified by their ids), as produced for the `add_shipping_zones` and
`add_warehouses` id-list fields; `vStock` for the `StockSettingsInput`
dictionary (whose single field `allocation_strategy` is required); `vOrder`
for the `OrderSettingsInput` dictionary. -/
inductive PyVal where
  | vNone
  | vBool (b : Bool)
  | vInt (n : Int)
  | vStr (s : String)
  | vIdList (ids : List Nat)
  | vStock (allocation_strategy : String)
  | vOrder (os : OrderSettings)
deriving DecidableEq, Repr

/-- Python truthiness of an embedded value: `None` is falsy, numbers are
truthy iff nonzero, strings and lists iff non-empty, dictionaries iff they
have at least one key (`vStock` always carries its required key). -/
def truthy : PyVal → Bool
  | .vNone => false
  | .vBool b => b
  | .vInt n => n != 0
  | .vStr s => s != ""
  | .vIdList ids => !ids.isEmpty
  | .vStock _ => true
  | .vOrder os => !os.isEmpty

/-- The `cleaned_input` dictionary: string keys to optional values.
`none` means the key is absent. -/
def Dict : Type := String → Option PyVal

/-- Dictionary assignment `d[k] = v`. -/
def dset (d : Dict) (k : String) (v : PyVal) : Dict :=
  fun k2 => if k2 = k then some v else d k2

/-- Lookup `d.get(k)`: Python `None` when the key is absent. -/
def dget (d : Dict) (k : String) : PyVal :=
  (d k).getD .vNone

/-- The ids carried by an id-list value (empty for `None`). -/
def idsOf : PyVal → List Nat
  | .vIdList ids => ids
  | _ => []

end ChannelCreate

namespace Slugify

/-- ASCII lower-casing of one character, as `str.lower` does on the ASCII
range (code points 65–90 map to 97–122). -/
def lowerChar (c : Char) : Char :=
  if 65 ≤ c.toNat ∧ c.toNat ≤ 90 then Char.ofNat (c.toNat + 32) else c

/-- The class `\w` for ASCII: letters, digits and the underscore. -/
def isWordChar (c : Char) : Bool :=
  c.isAlphanum || c = '_'

/-- A character matched by `[-\s]`: whitespace or a hyphen. -/
def isDashSpace (c : Char) : Bool :=
  c.isWhitespace || c = '-'

/-- A character kept by `re.sub(r"[^\w\s-]", "", ·)`. -/
def keepChar (c : Char) : Bool :=
  isWordChar c || c.isWhitespace || c = '-'

/-- The pass `re.sub(r"[-\s]+", "-", ·)`: every maximal run of whitespace/hyphen
characters is replaced by a single hyphen.  The boolean state records
whether the previous character belonged to such a run. -/
def collapseAux : Bool → List Char → List Char
  | _, [] => []
  | prevRun, c :: rest =>
    if isDashSpace c then
      if prevRun then collapseAux true rest
      else '-' :: collapseAux true rest
    else c :: collapseAux false rest

/-- A character removed by `.strip("-_")`. -/
def isStripChar (c : Char) : Bool :=
  c = '-' || c = '_'

/-- Python `.strip("-_")`: drop the stripped characters from both ends. -/
def stripEnds (l : List Char) : List Char :=
  (l.dropWhile isStripChar).rdropWhile isStripChar

/-- Embedding of `django.utils.text.slugify` on the ASCII fragment (the source calls it
with `allow_unicode=False`; the Unicode NFKD/ascii-encode normalisation
step is the identity on ASCII input): lower-case, delete characters that
are not word characters, whitespace or hyphens, collapse runs of
whitespace/hyphens to a single hyphen, and strip hyphens/underscores from
both ends. -/
def slugifyList (l : List Char) : List Char :=
  stripEnds (collapseAux false ((l.map lowerChar).filter keepChar))

/-- Slugification on strings. -/
def slugify (s : String) : String :=
  ⟨slugifyList s.data⟩

/-- No two adjacent hyphens occur in the list. -/
def noDoubleDash : List Char → Bool
  | [] => true
  | [_] => true
  | a :: b :: rest => !(a = '-' && b = '-') && noDoubleDash (b :: rest)

/-- The list does not begin with a hyphen. -/
def headNotDash : List Char → Bool
  | [] => true
  | c :: _ => c != '-'

end Slugify

namespace ChannelCreate

/-- Application of `slugify` to the value of the `"slug"` key.  The field
is declared `graphene.String`, so the value reaching this point is always
a string (the surrounding code applies it only when the value is truthy;
`slugify` begins with `str(value)`, the identity on strings). -/
def slugifyVal : PyVal → PyVal
  | .vStr s => .vStr (Slugify.slugify s)
  | v => v

/-- Embedding of `ChannelCreate.clean_expire_orders_after`:
`None` and `0` clean to `None`; a negative value raises a
`ValidationError` keyed on `expire_orders_after` with code `INVALID`;
any other value is returned unchanged. -/
def clean_expire_orders_after (expire_orders_after : Option Int) :
    Except ValidationError (Option Int) :=
  match expire_orders_after with
  | none => .ok none
  | some n =>
    if n = 0 then .ok none
    else if n < 0 then
      .error
        { field := "expire_orders_after"
          message := "Expiration time for orders cannot be lower than 0."
          code := ChannelErrorCode.INVALID }
    else .ok (some n)

/-- An `Option Int` stored back into the dictionary. -/
def optIntVal : Option Int → PyVal
  | none => .vNone
  | some n => .vInt n

/-- Step of `clean_input`: `slug = cleaned_input.get("slug");
if slug: cleaned_input["slug"] = slugify(slug)`. -/
def cleanSlug (ci : Dict) : Dict :=
  if truthy (dget ci "slug") then dset ci "slug" (slugifyVal (dget ci "slug"))
  else ci

/-- Step of `clean_input`: `if stock_settings := cleaned_input.get("stock_settings"):
cleaned_input["allocation_strategy"] = stock_settings["allocation_strategy"]`.
The only truthy value this key can hold is a `StockSettingsInput`
dictionary, whose required field is copied. -/
def cleanStockSettings (ci : Dict) : Dict :=
  match dget ci "stock_settings" with
  | .vStock a => dset ci "allocation_strategy" (.vStr a)
  | _ => ci

/-- Field `automatically_confirm_all_new_orders` is copied whenever
`order_settings.get(...)` is not `None` (an explicit `False` is kept). -/
def applyConfirmAllNewOrders (os : OrderSettings) (ci : Dict) : Dict :=
  match os.automatically_confirm_all_new_orders with
  | some b => dset ci "automatically_confirm_all_new_orders" (.vBool b)
  | none => ci

/-- Field `automatically_fulfill_non_shippable_gift_card` is copied whenever it
is not `None`. -/
def applyFulfillGiftCard (os : OrderSettings) (ci : Dict) : Dict :=
  match os.automatically_fulfill_non_shippable_gift_card with
  | some b => dset ci "automatically_fulfill_non_shippable_gift_card" (.vBool b)
  | none => ci

/-- Step `if mark_as_paid_strategy := order_settings.get("mark_as_paid_strategy"):`
— the value is copied (under the key `order_mark_as_paid_strategy`) only
when truthy. -/
def applyMarkAsPaid (os : OrderSettings) (ci : Dict) : Dict :=
  match os.mark_as_paid_strategy with
  | some s => if s ≠ "" then dset ci "order_mark_as_paid_strategy" (.vStr s) else ci
  | none => ci

/-- Step `if "expire_orders_after" in order_settings:` — when the key is
present its value is cleaned by `clean_expire_orders_after` (which may
raise) and the result stored. -/
def applyExpire (os : OrderSettings) (ci : Dict) : Except ValidationError Dict :=
  match os.expire_orders_after with
  | some eoa =>
    (clean_expire_orders_after eoa).map fun v =>
      dset ci "expire_orders_after" (optIntVal v)
  | none => .ok ci

/-- Step `if default_transaction_strategy := order_settings.get(
"default_transaction_flow_strategy"):` — copied only when truthy. -/
def applyDefaultTransactionFlow (os : OrderSettings) (ci : Dict) : Dict :=
  match os.default_transaction_flow_strategy with
  | some s =>
    if s ≠ "" then dset ci "default_transaction_flow_strategy" (.vStr s) else ci
  | none => ci

/-- Step of `clean_input`: the whole
`if order_settings := cleaned_input.get("order_settings"):` block, in
source order.  The walrus test is Python truthiness of the nested
dictionary (an empty dictionary skips the block). -/
def cleanOrderSettings (ci : Dict) : Except ValidationError Dict :=
  match dget ci "order_settings" with
  | .vOrder os =>
    if os.isEmpty then .ok ci
    else
      (applyExpire os (applyMarkAsPaid os (applyFulfillGiftCard os
        (applyConfirmAllNewOrders os ci)))).map
        (applyDefaultTransactionFlow os)
  | _ => .ok ci

/-- Embedding of `ChannelCreate.clean_input` applied to the dictionary returned by the
superclass `clean_input`: slug normalisation, then stock settings, then
order settings, threading the mutated dictionary through. -/
def clean_input (cleaned_input : Dict) : Except ValidationError Dict :=
  cleanOrderSettings (cleanStockSettings (cleanSlug cleaned_input))

/-- The database / plugin effects executed by the mutation, in execution
order.  `saveChannel` is the save of the channel instance, `baseM2M` the
superclass `_save_m2m`, `createTaxConfiguration` the
`TaxConfiguration.objects.create(channel=instance)` call and
`channelCreated` the `manager.channel_created(instance)` domain event. -/
inductive Event where
  | saveChannel (ch : Nat)
  | baseM2M (ch : Nat)
  | addShippingZones (ch : Nat) (ids : List Nat)
  | addWarehouses (ch : Nat) (ids : List Nat)
  | createTaxConfiguration (ch : Nat)
  | channelCreated (ch : Nat)
deriving DecidableEq, Repr

/-- The database state touched by the mutation, together with the trace of
effects executed so far.  Channels and tax configurations are recorded by
channel id; the two many-to-many relations as (channel id, related id)
pairs. -/
structure Store where
  channels : List Nat := []
  taxConfigurations : List Nat := []
  shippingZoneAssignments : List (Nat × Nat) := []
  warehouseAssignments : List (Nat × Nat) := []
  trace : List Event := []
deriving DecidableEq, Repr

/-- Saving the new channel instance. -/
def saveChannelStep (inst : Nat) (s : Store) : Store :=
  { s with
    channels := s.channels ++ [inst]
    trace := s.trace ++ [.saveChannel inst] }

/-- Django `ManyRelatedManager.add`: set semantics, pairs already present
are not duplicated. -/
def m2mAdd (rel : List (Nat × Nat)) (ch : Nat) (ids : List Nat) :
    List (Nat × Nat) :=
  ids.foldl (fun r z => if (ch, z) ∈ r then r else r ++ [(ch, z)]) rel

/-- Embedding of `ChannelCreate._save_m2m`: the superclass save, then
`instance.shipping_zones.add(*shipping_zones)` when the cleaned
`add_shipping_zones` list is truthy, then the same for warehouses. -/
def save_m2m (inst : Nat) (cleaned_data : Dict) (s : Store) : Store :=
  let s1 : Store := { s with trace := s.trace ++ [.baseM2M inst] }
  let zs := idsOf (dget cleaned_data "add_shipping_zones")
  let s2 : Store :=
    if zs.isEmpty then s1
    else
      { s1 with
        shippingZoneAssignments := m2mAdd s1.shippingZoneAssignments inst zs
        trace := s1.trace ++ [.addShippingZones inst zs] }
  let ws := idsOf (dget cleaned_data "add_warehouses")
  if ws.isEmpty then s2
  else
    { s2 with
      warehouseAssignments := m2mAdd s2.warehouseAssignments inst ws
      trace := s2.trace ++ [.addWarehouses inst ws] }

/-- Embedding of `ChannelCreate.post_save_action`: create the `TaxConfiguration` for
the instance, then fire the `channel_created` event — in that order. -/
def post_save_action (inst : Nat) (s : Store) : Store :=
  let s1 : Store :=
    { s with
      taxConfigurations := s.taxConfigurations ++ [inst]
      trace := s.trace ++ [.createTaxConfiguration inst] }
  { s1 with trace := s1.trace ++ [.channelCreated inst] }

/-- Modelled from the spec: the `ModelMutation.perform_mutation` driver is
not part of this source slice; per the design note the mutation "validates
input and creates a sales-channel record …, including related
tax-configuration and many-to-many assignments (shipping zones,
warehouses), and fires a domain event afterward".  Input cleaning runs
first; only on success are the instance saved, `_save_m2m` run and
`post_save_action` executed. -/
def perform_mutation (inst : Nat) (data : Dict) (s : Store) :
    Except ValidationError (Dict × Store) :=
  match clean_input data with
  | .error e => .error e
  | .ok cleaned =>
    .ok (cleaned, post_save_action inst (save_m2m inst cleaned (saveChannelStep inst s)))

/-- The store produced by a successful run (`none` when validation
raised). -/
def mutation_result (inst : Nat) (data : Dict) (s : Store) : Option Store :=
  match perform_mutation inst data s with
  | .ok (_, s2) => some s2
  | .error _ => none

/-- Modelled from the spec: a raised `ValidationError` propagates out of
the request, whose "single request-scoped database transaction" (design
note §5) is rolled back, so the store is left as it was. -/
def run_mutation (inst : Nat) (data : Dict) (s : Store) : Store :=
  match perform_mutation inst data s with
  | .ok (_, s2) => s2
  | .error _ => s

/-- Database-level failures that can occur inside `_save_m2m`. -/
inductive DBError where
  | baseM2MError
  | shippingZonesError
  | warehousesError
deriving DecidableEq, Repr

/-- Which of the three database writes of `_save_m2m` succeed. -/
structure M2MOutcome where
  baseOk : Bool
  shippingOk : Bool
  warehousesOk : Bool
deriving DecidableEq, Repr

/-- The body of `ChannelCreate._save_m2m` with each database write allowed
to fail, per the outcome `f`: the superclass save, then the conditional
shipping-zone add, then the conditional warehouse add; a failing step
raises and abandons the rest. -/
def save_m2m_steps (f : M2MOutcome) (inst : Nat) (cleaned_data : Dict)
    (s : Store) : Except DBError Store :=
  if !f.baseOk then .error .baseM2MError
  else
    let s1 : Store := { s with trace := s.trace ++ [.baseM2M inst] }
    let zs := idsOf (dget cleaned_data "add_shipping_zones")
    let step2 : Except DBError Store :=
      if zs.isEmpty then .ok s1
      else if !f.shippingOk then .error .shippingZonesError
      else
        .ok
          { s1 with
            shippingZoneAssignments := m2mAdd s1.shippingZoneAssignments inst zs
            trace := s1.trace ++ [.addShippingZones inst zs] }
    match step2 with
    | .error e => .error e
    | .ok s2 =>
      let ws := idsOf (dget cleaned_data "add_warehouses")
      if ws.isEmpty then .ok s2
      else if !f.warehousesOk then .error .warehousesError
      else
        .ok
          { s2 with
            warehouseAssignments := m2mAdd s2.warehouseAssignments inst ws
            trace := s2.trace ++ [.addWarehouses inst ws] }

/-- Modelled from the spec: `traced_atomic_transaction` wraps the body of
`_save_m2m`; per the design note §5 the operations run inside a database
transaction, so when the body raises, the database is rolled back to the
state at entry and the error reported. -/
def save_m2m_atomic (f : M2MOutcome) (inst : Nat) (cleaned_data : Dict)
    (s : Store) : Store × Option DBError :=
  match save_m2m_steps f inst cleaned_data s with
  | .ok s2 => (s2, none)
  | .error e => (s, some e)

/-- Event classifiers used to state uniqueness of trace events. -/
def isTaxCreate : Event → Bool
  | .createTaxConfiguration _ => true
  | _ => false

/-- Classifier for the `channel_created` domain event. -/
def isChannelCreatedEvent : Event → Bool
  | .channelCreated _ => true
  | _ => false

/-- Classifier for the events `_save_m2m` can emit. -/
def isM2MEvent : Event → Bool
  | .baseM2M _ => true
  | .addShippingZones _ _ => true
  | .addWarehouses _ _ => true
  | _ => false

/-- The empty input dictionary (used to instantiate theorems). -/
def emptyDict : Dict := fun _ => none

/-- A sample input carrying shipping zones and warehouses. -/
def sampleM2MInput : Dict :=
  dset (dset emptyDict "add_shipping_zones" (.vIdList [5, 6]))
    "add_warehouses" (.vIdList [7])

/-- A sample input whose order settings carry a negative
`expire_orders_after`. -/
def sampleNegativeExpireInput : Dict :=
  dset emptyDict "order_settings"
    (.vOrder { expire_orders_after := some (some (-5)) })

/-- A sample input whose order settings carry an explicit `False` boolean
and falsy enum values. -/
def sampleAsymmetryInput : Dict :=
  dset emptyDict "order_settings"
    (.vOrder
      { automatically_confirm_all_new_orders := some false
        mark_as_paid_strategy := some ""
        default_transaction_flow_strategy := some "" })

/-- A sample input with a slug needing normalisation. -/
def sampleSlugInput : Dict :=
  dset emptyDict "slug" (.vStr "My  Channel!")

/-- The store produced by a successful run on `sampleM2MInput` from the
empty store (used to instantiate theorems). -/
def sampleM2MResult : Store :=
  { channels := [1], taxConfigurations := [1],
    shippingZoneAssignments := [(1, 5), (1, 6)],
    warehouseAssignments := [(1, 7)],
    trace := [.saveChannel 1, .baseM2M 1, .addShippingZones 1 [5, 6],
      .addWarehouses 1 [7], .createTaxConfiguration 1, .channelCreated 1] }

/-- The keys `clean_input` may add or overwrite. -/
def writtenKeys : List String :=
  ["slug", "allocation_strategy", "automatically_confirm_all_new_orders",
   "automatically_fulfill_non_shippable_gift_card", "order_mark_as_paid_strategy",
   "expire_orders_after", "default_transaction_flow_strategy"]

end ChannelCreate
namespace Slugify

theorem toNat_ofNat_small (m : Nat) (h : m < 55296) : (Char.ofNat m).toNat = m := by
  rw [Char.ofNat, dif_pos (Or.inl h)]
  rfl

/-- ASCII lower-casing is idempotent. -/
theorem lowerChar_idem (c : Char) : lowerChar (lowerChar c) = lowerChar c := by
  unfold lowerChar
  by_cases h : 65 ≤ c.toNat ∧ c.toNat ≤ 90
  · rw [if_pos h]
    have ht : (Char.ofNat (c.toNat + 32)).toNat = c.toNat + 32 :=
      toNat_ofNat_small _ (by omega)
    rw [if_neg]
    rw [ht]
    omega
  · rw [if_neg h, if_neg h]

end Slugify
namespace Slugify

/-- Characters of the collapsed list: introduced hyphens, or original
characters that are not whitespace/hyphen. -/
theorem mem_collapseAux {c : Char} :
    ∀ (l : List Char) (b : Bool), c ∈ collapseAux b l →
      c = '-' ∨ (c ∈ l ∧ isDashSpace c = false) := by
  intro l
  induction l with
  | nil => intro b h; simp [collapseAux] at h
  | cons a rest ih =>
    intro b h
    by_cases ha : isDashSpace a
    · rcases hb : b with _ | _
      · rw [collapseAux, if_pos ha, hb] at h
        simp only [Bool.false_eq_true, if_false, List.mem_cons] at h
        rcases h with h | h
        · exact Or.inl h
        · rcases ih true h with h1 | ⟨h1, h2⟩
          · exact Or.inl h1
          · exact Or.inr ⟨List.mem_cons_of_mem _ h1, h2⟩
      · rw [collapseAux, if_pos ha, hb] at h
        simp only [if_true] at h
        rcases ih true h with h1 | ⟨h1, h2⟩
        · exact Or.inl h1
        · exact Or.inr ⟨List.mem_cons_of_mem _ h1, h2⟩
    · rw [collapseAux, if_neg ha] at h
      rcases List.mem_cons.mp h with h | h
      · subst h
        exact Or.inr ⟨List.mem_cons_self _ _, by simpa using ha⟩
      · rcases ih false h with h1 | ⟨h1, h2⟩
        · exact Or.inl h1
        · exact Or.inr ⟨List.mem_cons_of_mem _ h1, h2⟩

/-- The collapsed list has no run of two hyphens, and in the `true` state
it cannot begin with one. -/
theorem collapseAux_noDD :
    ∀ (l : List Char), (∀ b, noDoubleDash (collapseAux b l) = true) ∧
      headNotDash (collapseAux true l) = true := by
  intro l
  induction l with
  | nil => exact ⟨fun _ => rfl, rfl⟩
  | cons a rest ih =>
    by_cases ha : isDashSpace a
    · refine ⟨fun b => ?_, ?_⟩
      · rcases b with _ | _
        · rw [collapseAux, if_pos ha]
          simp only [Bool.false_eq_true, if_false]
          rcases hz : collapseAux true rest with _ | ⟨d, r⟩
          · rfl
          · have hnd : headNotDash (collapseAux true rest) = true := ih.2
            rw [hz] at hnd
            have hdd : noDoubleDash (collapseAux true rest) = true := ih.1 true
            rw [hz] at hdd
            rw [noDoubleDash]
            simp only [Bool.and_eq_true, Bool.not_eq_true']
            refine ⟨?_, hdd⟩
            simp only [headNotDash, bne_iff_ne, ne_eq] at hnd
            simp [hnd]
        · rw [collapseAux, if_pos ha]
          simp only [if_true]
          exact ih.1 true
      · rw [collapseAux, if_pos ha]
        simp only [if_true]
        exact ih.2
    · have hne : a ≠ '-' := by
        intro hcon; rw [hcon] at ha; simp [isDashSpace] at ha
      refine ⟨fun b => ?_, ?_⟩
      · rw [collapseAux, if_neg ha]
        rcases hz : collapseAux false rest with _ | ⟨d, r⟩
        · rfl
        · have hdd : noDoubleDash (collapseAux false rest) = true := ih.1 false
          rw [hz] at hdd
          rw [noDoubleDash]
          simp only [Bool.and_eq_true, Bool.not_eq_true']
          exact ⟨by simp [hne], hdd⟩
      · rw [collapseAux, if_neg ha]
        simp [headNotDash, hne]

end Slugify
namespace Slugify

theorem noDD_tail {c : Char} {l : List Char}
    (h : noDoubleDash (c :: l) = true) : noDoubleDash l = true := by
  rcases l with _ | ⟨d, r⟩
  · rfl
  · rw [noDoubleDash] at h
    simp only [Bool.and_eq_true] at h
    exact h.2

theorem noDD_append_right {l1 l2 : List Char}
    (h : noDoubleDash (l1 ++ l2) = true) : noDoubleDash l2 = true := by
  induction l1 with
  | nil => exact h
  | cons a r ih => exact ih (noDD_tail h)

theorem noDD_append_left {l1 l2 : List Char}
    (h : noDoubleDash (l1 ++ l2) = true) : noDoubleDash l1 = true := by
  induction l1 with
  | nil => rfl
  | cons a r ih =>
    rcases r with _ | ⟨b, r2⟩
    · rfl
    · rw [List.cons_append, List.cons_append] at h
      rw [noDoubleDash] at h ⊢
      simp only [Bool.and_eq_true] at h ⊢
      refine ⟨h.1, ?_⟩
      exact ih (by rw [List.cons_append]; exact h.2)

/-- A whitespace-free list without double hyphens is a fixed point of the
collapsing pass (in the `true` state provided it does not begin with a
hyphen). -/
theorem collapseAux_eq_self :
    ∀ (l : List Char), (∀ c ∈ l, c.isWhitespace = false) →
      noDoubleDash l = true →
      collapseAux false l = l ∧
        (headNotDash l = true → collapseAux true l = l) := by
  intro l
  induction l with
  | nil => exact fun _ _ => ⟨rfl, fun _ => rfl⟩
  | cons a rest ih =>
    intro hws hdd
    have hwsr : ∀ c ∈ rest, c.isWhitespace = false :=
      fun c hc => hws c (List.mem_cons_of_mem _ hc)
    have hddr : noDoubleDash rest = true := noDD_tail hdd
    by_cases ha : a = '-'
    · subst ha
      have hd : isDashSpace '-' = true := by simp [isDashSpace]
      have hrest : headNotDash rest = true := by
        rcases rest with _ | ⟨d, r⟩
        · rfl
        · rw [noDoubleDash] at hdd
          simp only [Bool.and_eq_true, Bool.not_eq_true', Bool.and_eq_false_iff,
            decide_eq_false_iff_not] at hdd
          rcases hdd.1 with h | h
          · simp at h
          · simp [headNotDash, h]
      have htail : collapseAux true rest = rest := (ih hwsr hddr).2 hrest
      constructor
      · rw [collapseAux, if_pos hd]
        simp [htail]
      · intro hcon
        simp [headNotDash] at hcon
    · have hds : isDashSpace a = false := by
        have := hws a (List.mem_cons_self _ _)
        simp [isDashSpace, this, ha]
      have htail : collapseAux false rest = rest := (ih hwsr hddr).1
      constructor
      · rw [collapseAux, if_neg (by simp [hds])]
        simp [htail]
      · intro _
        rw [collapseAux, if_neg (by simp [hds])]
        simp [htail]

end Slugify
namespace Slugify

theorem mem_stripEnds {c : Char} {l : List Char} (h : c ∈ stripEnds l) :
    c ∈ l := by
  rw [stripEnds, List.rdropWhile] at h
  rw [List.mem_reverse] at h
  have h2 := List.dropWhile_subset isStripChar h
  rw [List.mem_reverse] at h2
  exact List.dropWhile_subset isStripChar h2

theorem stripEnds_noDD {l : List Char} (h : noDoubleDash l = true) :
    noDoubleDash (stripEnds l) = true := by
  have hsuf : List.dropWhile isStripChar l <:+ l :=
    List.dropWhile_suffix isStripChar
  obtain ⟨t, ht⟩ := hsuf
  have h0 : noDoubleDash (t ++ l.dropWhile isStripChar) = true := by
    rw [ht]; exact h
  have h1 : noDoubleDash (l.dropWhile isStripChar) = true := noDD_append_right h0
  obtain ⟨t2, ht2⟩ :=
    List.rdropWhile_prefix isStripChar (l.dropWhile isStripChar)
  have h2 : noDoubleDash (List.rdropWhile isStripChar
      (l.dropWhile isStripChar) ++ t2) = true := by
    rw [ht2]; exact h1
  rw [stripEnds]
  exact noDD_append_left h2

theorem stripEnds_idem (l : List Char) : stripEnds (stripEnds l) = stripEnds l := by
  rw [stripEnds, stripEnds]
  have hfix : (List.rdropWhile isStripChar
      (l.dropWhile isStripChar)).dropWhile isStripChar =
      List.rdropWhile isStripChar (l.dropWhile isStripChar) := by
    rcases hru : List.rdropWhile isStripChar (l.dropWhile isStripChar) with _ | ⟨d, r⟩
    · rfl
    · obtain ⟨t, ht⟩ :=
        List.rdropWhile_prefix isStripChar (l.dropWhile isStripChar)
      rw [hru] at ht
      have heq : List.dropWhile isStripChar l = d :: (r ++ t) := by
        rw [← ht]; rfl
      have hne : l.dropWhile isStripChar ≠ [] := by
        rw [heq]; simp
      have hhead := List.head_dropWhile_not isStripChar l hne
      simp only [heq, List.head_cons] at hhead
      rw [List.dropWhile_cons, if_neg (by simp [hhead])]
  rw [hfix, List.rdropWhile_idempotent]

theorem map_eq_self_of_mem {α : Type} {f : α → α} :
    ∀ {l : List α}, (∀ c ∈ l, f c = c) → l.map f = l := by
  intro l
  induction l with
  | nil => intro _; rfl
  | cons a r ih =>
    intro h
    rw [List.map_cons, h a (List.mem_cons_self _ _),
      ih fun c hc => h c (List.mem_cons_of_mem _ hc)]

end Slugify
namespace Slugify

/-- Every character of a slug is a lower-case-stable word character or a
hyphen, and never whitespace. -/
theorem slugOutputChar {l : List Char} {c : Char} (h : c ∈ slugifyList l) :
    (isWordChar c = true ∧ c.isWhitespace = false ∧ lowerChar c = c) ∨ c = '-' := by
  rw [slugifyList] at h
  have h1 := mem_stripEnds h
  rcases mem_collapseAux _ _ h1 with h2 | ⟨h2, h3⟩
  · exact Or.inr h2
  · rw [List.mem_filter] at h2
    obtain ⟨hmem, hkeep⟩ := h2
    rw [List.mem_map] at hmem
    obtain ⟨x, _, hx⟩ := hmem
    have hfix : lowerChar c = c := by rw [← hx, lowerChar_idem]
    simp only [isDashSpace, Bool.or_eq_false_iff, decide_eq_false_iff_not] at h3
    simp only [keepChar, Bool.or_eq_true, decide_eq_true_eq] at hkeep
    rcases hkeep with (hk | hk) | hk
    · exact Or.inl ⟨hk, h3.1, hfix⟩
    · rw [h3.1] at hk; cases hk
    · exact absurd hk h3.2

/-- Slugification of character lists is idempotent. -/
theorem slugifyList_idem (l : List Char) :
    slugifyList (slugifyList l) = slugifyList l := by
  have hmap : (slugifyList l).map lowerChar = slugifyList l :=
    map_eq_self_of_mem fun c hc => by
      rcases slugOutputChar hc with ⟨_, _, h3⟩ | h3
      · exact h3
      · rw [h3]; decide
  have hfilter : (slugifyList l).filter keepChar = slugifyList l :=
    List.filter_eq_self.mpr fun c hc => by
      rcases slugOutputChar hc with ⟨h1, _, _⟩ | h1
      · simp [keepChar, h1]
      · rw [h1]; decide
  have hws : ∀ c ∈ slugifyList l, c.isWhitespace = false := fun c hc => by
    rcases slugOutputChar hc with ⟨_, h2, _⟩ | h2
    · exact h2
    · rw [h2]; decide
  have hnoDD : noDoubleDash (slugifyList l) = true := by
    rw [slugifyList]
    exact stripEnds_noDD ((collapseAux_noDD _).1 false)
  have hcollapse : collapseAux false (slugifyList l) = slugifyList l :=
    (collapseAux_eq_self _ hws hnoDD).1
  have hstrip : stripEnds (slugifyList l) = slugifyList l := by
    rw [slugifyList, stripEnds_idem]
  show stripEnds (collapseAux false
      (((slugifyList l).map lowerChar).filter keepChar)) = slugifyList l
  rw [hmap, hfilter, hcollapse, hstrip]

/-- Slugification is idempotent on strings. -/
theorem slugify_idem (s : String) : slugify (slugify s) = slugify s := by
  show String.mk (slugifyList (slugifyList s.data)) = String.mk (slugifyList s.data)
  exact congrArg String.mk (slugifyList_idem s.data)

end Slugify
namespace ChannelCreate

theorem dset_self (d : Dict) (k : String) (v : PyVal) : dset d k v k = some v := by
  simp [dset]

theorem dset_other (d : Dict) (k : String) (v : PyVal) {k2 : String}
    (h : k2 ≠ k) : dset d k v k2 = d k2 := by
  simp [dset, h]

theorem cleanSlug_other {ci : Dict} {k : String} (h : k ≠ "slug") :
    cleanSlug ci k = ci k := by
  unfold cleanSlug
  split
  · exact dset_other _ _ _ h
  · rfl

theorem cleanStockSettings_other {ci : Dict} {k : String}
    (h : k ≠ "allocation_strategy") : cleanStockSettings ci k = ci k := by
  unfold cleanStockSettings
  rcases hs : dget ci "stock_settings" with _ | b | n | s | ids | a | os2
  case vStock => exact dset_other _ _ _ h
  all_goals rfl

theorem applyConfirmAllNewOrders_other {os : OrderSettings} {ci : Dict} {k : String}
    (h : k ≠ "automatically_confirm_all_new_orders") :
    applyConfirmAllNewOrders os ci k = ci k := by
  unfold applyConfirmAllNewOrders
  rcases hb : os.automatically_confirm_all_new_orders with _ | b
  · rfl
  · exact dset_other _ _ _ h

theorem applyFulfillGiftCard_other {os : OrderSettings} {ci : Dict} {k : String}
    (h : k ≠ "automatically_fulfill_non_shippable_gift_card") :
    applyFulfillGiftCard os ci k = ci k := by
  unfold applyFulfillGiftCard
  rcases hb : os.automatically_fulfill_non_shippable_gift_card with _ | b
  · rfl
  · exact dset_other _ _ _ h

theorem applyMarkAsPaid_other {os : OrderSettings} {ci : Dict} {k : String}
    (h : k ≠ "order_mark_as_paid_strategy") :
    applyMarkAsPaid os ci k = ci k := by
  unfold applyMarkAsPaid
  rcases hs : os.mark_as_paid_strategy with _ | s
  · rfl
  · show (if s ≠ "" then dset ci "order_mark_as_paid_strategy" (PyVal.vStr s)
      else ci) k = ci k
    by_cases hne : s = ""
    · rw [if_neg (by simp [hne])]
    · rw [if_pos hne]
      exact dset_other _ _ _ h

theorem applyDefaultTransactionFlow_other {os : OrderSettings} {ci : Dict} {k : String}
    (h : k ≠ "default_transaction_flow_strategy") :
    applyDefaultTransactionFlow os ci k = ci k := by
  unfold applyDefaultTransactionFlow
  rcases hs : os.default_transaction_flow_strategy with _ | s
  · rfl
  · show (if s ≠ "" then dset ci "default_transaction_flow_strategy" (PyVal.vStr s)
      else ci) k = ci k
    by_cases hne : s = ""
    · rw [if_neg (by simp [hne])]
    · rw [if_pos hne]
      exact dset_other _ _ _ h

theorem applyExpire_ok_other {os : OrderSettings} {ci ci2 : Dict} {k : String}
    (h : applyExpire os ci = .ok ci2) (hk : k ≠ "expire_orders_after") :
    ci2 k = ci k := by
  unfold applyExpire at h
  rcases hos : os.expire_orders_after with _ | eoa <;> rw [hos] at h
  · cases h
    rfl
  · have h2 : Except.map (fun v => dset ci "expire_orders_after" (optIntVal v))
      (clean_expire_orders_after eoa) = Except.ok ci2 := h
    rcases he : clean_expire_orders_after eoa with e | v <;> rw [he] at h2
    · cases h2
    · simp only [Except.map] at h2
      cases h2
      exact dset_other _ _ _ hk

theorem applyConfirmAllNewOrders_self {os : OrderSettings} {ci : Dict} {b : Bool}
    (hb : os.automatically_confirm_all_new_orders = some b) :
    applyConfirmAllNewOrders os ci "automatically_confirm_all_new_orders" =
      some (.vBool b) := by
  unfold applyConfirmAllNewOrders
  rw [hb]
  exact dset_self _ _ _

theorem applyFulfillGiftCard_self {os : OrderSettings} {ci : Dict} {b : Bool}
    (hb : os.automatically_fulfill_non_shippable_gift_card = some b) :
    applyFulfillGiftCard os ci "automatically_fulfill_non_shippable_gift_card" =
      some (.vBool b) := by
  unfold applyFulfillGiftCard
  rw [hb]
  exact dset_self _ _ _

theorem applyMarkAsPaid_self {os : OrderSettings} {ci : Dict} {s : String}
    (hs : os.mark_as_paid_strategy = some s) (hne : s ≠ "") :
    applyMarkAsPaid os ci "order_mark_as_paid_strategy" = some (.vStr s) := by
  unfold applyMarkAsPaid
  rw [hs]
  show (if s ≠ "" then dset ci "order_mark_as_paid_strategy" (PyVal.vStr s)
    else ci) "order_mark_as_paid_strategy" = some (PyVal.vStr s)
  rw [if_pos hne]
  exact dset_self _ _ _

theorem applyMarkAsPaid_dropped {os : OrderSettings} {ci : Dict}
    (hs : os.mark_as_paid_strategy = some "") :
    applyMarkAsPaid os ci = ci := by
  unfold applyMarkAsPaid
  rw [hs]
  show (if ("" : String) ≠ "" then dset ci "order_mark_as_paid_strategy" (PyVal.vStr "")
    else ci) = ci
  rw [if_neg (by simp)]

theorem applyDefaultTransactionFlow_self {os : OrderSettings} {ci : Dict} {s : String}
    (hs : os.default_transaction_flow_strategy = some s) (hne : s ≠ "") :
    applyDefaultTransactionFlow os ci "default_transaction_flow_strategy" =
      some (.vStr s) := by
  unfold applyDefaultTransactionFlow
  rw [hs]
  show (if s ≠ "" then dset ci "default_transaction_flow_strategy" (PyVal.vStr s)
    else ci) "default_transaction_flow_strategy" = some (PyVal.vStr s)
  rw [if_pos hne]
  exact dset_self _ _ _

theorem applyDefaultTransactionFlow_dropped {os : OrderSettings} {ci : Dict}
    (hs : os.default_transaction_flow_strategy = some "") :
    applyDefaultTransactionFlow os ci = ci := by
  unfold applyDefaultTransactionFlow
  rw [hs]
  show (if ("" : String) ≠ "" then dset ci "default_transaction_flow_strategy" (PyVal.vStr "")
    else ci) = ci
  rw [if_neg (by simp)]

end ChannelCreate
namespace ChannelCreate

/-- Decomposition of a successful `cleanOrderSettings` run when the
`order_settings` key holds a (non-empty) settings dictionary. -/
theorem cleanOrderSettings_vOrder {ci ci2 : Dict} {os : OrderSettings}
    (hos : dget ci "order_settings" = .vOrder os)
    (h : cleanOrderSettings ci = .ok ci2) :
    (os.isEmpty = true → ci2 = ci) ∧
      (os.isEmpty = false →
        ∃ mid, applyExpire os (applyMarkAsPaid os (applyFulfillGiftCard os
            (applyConfirmAllNewOrders os ci))) = .ok mid ∧
          ci2 = applyDefaultTransactionFlow os mid) := by
  unfold cleanOrderSettings at h
  rw [hos] at h
  have h2 : (if os.isEmpty then Except.ok ci
      else (applyExpire os (applyMarkAsPaid os (applyFulfillGiftCard os
        (applyConfirmAllNewOrders os ci)))).map
        (applyDefaultTransactionFlow os)) = Except.ok ci2 := h
  by_cases hemp : os.isEmpty = true
  · rw [if_pos hemp] at h2
    cases h2
    exact ⟨fun _ => rfl, fun hcon => by rw [hemp] at hcon; cases hcon⟩
  · rw [if_neg hemp] at h2
    refine ⟨fun hcon => absurd hcon hemp, fun _ => ?_⟩
    rcases he : applyExpire os (applyMarkAsPaid os (applyFulfillGiftCard os
        (applyConfirmAllNewOrders os ci))) with e | mid
    · rw [he] at h2
      simp only [Except.map] at h2
      cases h2
    · rw [he] at h2
      simp only [Except.map, Except.ok.injEq] at h2
      exact ⟨mid, rfl, h2.symm⟩

/-- When the `order_settings` key holds anything but a non-empty settings
dictionary, `cleanOrderSettings` returns the dictionary unchanged. -/
theorem cleanOrderSettings_skip {ci ci2 : Dict}
    (hos : ∀ os : OrderSettings, dget ci "order_settings" = .vOrder os →
      os.isEmpty = true)
    (h : cleanOrderSettings ci = .ok ci2) : ci2 = ci := by
  unfold cleanOrderSettings at h
  rcases hv : dget ci "order_settings" with _ | b | n | s | ids | a | os <;> rw [hv] at h
  case vOrder =>
    have hemp := hos os hv
    have h2 : (if os.isEmpty then Except.ok ci
        else (applyExpire os (applyMarkAsPaid os (applyFulfillGiftCard os
          (applyConfirmAllNewOrders os ci)))).map
          (applyDefaultTransactionFlow os)) = Except.ok ci2 := h
    rw [if_pos hemp] at h2
    cases h2
    rfl
  all_goals
    have h2 : Except.ok ci = Except.ok ci2 := h
    cases h2
    rfl

/-- A successful `cleanOrderSettings` touches none of the keys other than
the five order-settings keys. -/
theorem cleanOrderSettings_other {ci ci2 : Dict} {k : String}
    (h : cleanOrderSettings ci = .ok ci2)
    (h1 : k ≠ "automatically_confirm_all_new_orders")
    (h2 : k ≠ "automatically_fulfill_non_shippable_gift_card")
    (h3 : k ≠ "order_mark_as_paid_strategy")
    (h4 : k ≠ "expire_orders_after")
    (h5 : k ≠ "default_transaction_flow_strategy") :
    ci2 k = ci k := by
  rcases hv : dget ci "order_settings" with _ | b | n | s | ids | a | os
  case vOrder =>
    rcases hemp : os.isEmpty with _ | _
    · obtain ⟨mid, hmid, hci2⟩ := (cleanOrderSettings_vOrder hv h).2 hemp
      rw [hci2, applyDefaultTransactionFlow_other h5, applyExpire_ok_other hmid h4,
        applyMarkAsPaid_other h3, applyFulfillGiftCard_other h2,
        applyConfirmAllNewOrders_other h1]
    · rw [(cleanOrderSettings_vOrder hv h).1 hemp]
  all_goals
    rw [cleanOrderSettings_skip (fun os hos => by rw [hv] at hos; cases hos) h]

/-- A successful `clean_input` touches no key outside `writtenKeys`. -/
theorem clean_input_other {m ci : Dict} {k : String}
    (h : clean_input m = .ok ci) (hk : k ∉ writtenKeys) : ci k = m k := by
  simp only [writtenKeys, List.mem_cons, List.not_mem_nil, or_false, not_or] at hk
  obtain ⟨k1, k2, k3, k4, k5, k6, k7⟩ := hk
  have hord : cleanOrderSettings (cleanStockSettings (cleanSlug m)) = .ok ci := h
  rw [cleanOrderSettings_other hord k3 k4 k5 k6 k7, cleanStockSettings_other k2,
    cleanSlug_other k1]

end ChannelCreate
namespace ChannelCreate

/-- Membership in the result of a many-to-many `add`. -/
theorem mem_m2mAdd :
    ∀ (ids : List Nat) (rel : List (Nat × Nat)) (ch : Nat) (p : Nat × Nat),
      p ∈ m2mAdd rel ch ids ↔ p ∈ rel ∨ (p.1 = ch ∧ p.2 ∈ ids) := by
  intro ids
  induction ids with
  | nil => intro rel ch p; simp [m2mAdd]
  | cons z ids ih =>
    intro rel ch p
    have hstep : m2mAdd rel ch (z :: ids) =
        m2mAdd (if (ch, z) ∈ rel then rel else rel ++ [(ch, z)]) ch ids := by
      rw [m2mAdd, List.foldl_cons]
      rfl
    rw [hstep, ih]
    by_cases hmem : (ch, z) ∈ rel
    · rw [if_pos hmem]
      constructor
      · rintro (hp | hp)
        · exact Or.inl hp
        · exact Or.inr ⟨hp.1, List.mem_cons_of_mem _ hp.2⟩
      · rintro (hp | ⟨hp1, hp2⟩)
        · exact Or.inl hp
        · rcases List.mem_cons.mp hp2 with hz | hz
          · refine Or.inl ?_
            have : p = (ch, z) := Prod.ext hp1 hz
            rw [this]; exact hmem
          · exact Or.inr ⟨hp1, hz⟩
    · rw [if_neg hmem]
      constructor
      · rintro (hp | hp)
        · rcases List.mem_append.mp hp with hp | hp
          · exact Or.inl hp
          · rcases List.mem_singleton.mp hp with rfl
            exact Or.inr ⟨rfl, List.mem_cons_self _ _⟩
        · exact Or.inr ⟨hp.1, List.mem_cons_of_mem _ hp.2⟩
      · rintro (hp | ⟨hp1, hp2⟩)
        · exact Or.inl (List.mem_append_left _ hp)
        · rcases List.mem_cons.mp hp2 with hz | hz
          · refine Or.inl (List.mem_append_right _ ?_)
            rw [List.mem_singleton]
            exact Prod.ext hp1 hz
          · exact Or.inr ⟨hp1, hz⟩

theorem save_m2m_shipping (inst : Nat) (c : Dict) (s : Store) :
    (save_m2m inst c s).shippingZoneAssignments =
      if (idsOf (dget c "add_shipping_zones")).isEmpty then
        s.shippingZoneAssignments
      else m2mAdd s.shippingZoneAssignments inst (idsOf (dget c "add_shipping_zones")) := by
  unfold save_m2m
  dsimp only
  split_ifs <;> rfl

theorem save_m2m_warehouses (inst : Nat) (c : Dict) (s : Store) :
    (save_m2m inst c s).warehouseAssignments =
      if (idsOf (dget c "add_warehouses")).isEmpty then
        s.warehouseAssignments
      else m2mAdd s.warehouseAssignments inst (idsOf (dget c "add_warehouses")) := by
  unfold save_m2m
  dsimp only
  split_ifs <;> rfl

theorem save_m2m_tax (inst : Nat) (c : Dict) (s : Store) :
    (save_m2m inst c s).taxConfigurations = s.taxConfigurations := by
  unfold save_m2m
  dsimp only
  split_ifs <;> rfl

theorem save_m2m_trace (inst : Nat) (c : Dict) (s : Store) :
    ∃ mid, (save_m2m inst c s).trace = s.trace ++ .baseM2M inst :: mid ∧
      ∀ e ∈ mid, isM2MEvent e = true := by
  unfold save_m2m
  dsimp only
  split_ifs with h1 h2 h3
  · exact ⟨[], by simp, by simp⟩
  · refine ⟨[.addShippingZones inst (idsOf (dget c "add_shipping_zones"))], by simp, ?_⟩
    intro e he
    rcases List.mem_singleton.mp he with rfl
    rfl
  · refine ⟨[.addWarehouses inst (idsOf (dget c "add_warehouses"))], by simp, ?_⟩
    intro e he
    rcases List.mem_singleton.mp he with rfl
    rfl
  · refine ⟨[.addShippingZones inst (idsOf (dget c "add_shipping_zones")),
      .addWarehouses inst (idsOf (dget c "add_warehouses"))], by simp, ?_⟩
    intro e he
    rcases List.mem_cons.mp he with rfl | he
    · rfl
    · rcases List.mem_singleton.mp he with rfl
      rfl

/-- Decomposition of a successful mutation run. -/
theorem mutation_result_some {inst : Nat} {data : Dict} {s s2 : Store}
    (h : mutation_result inst data s = some s2) :
    ∃ c, clean_input data = .ok c ∧
      s2 = post_save_action inst (save_m2m inst c (saveChannelStep inst s)) := by
  unfold mutation_result perform_mutation at h
  rcases hc : clean_input data with e | c <;> rw [hc] at h
  · cases h
  · have h2 : some (post_save_action inst (save_m2m inst c (saveChannelStep inst s)))
        = some s2 := h
    cases h2
    exact ⟨c, rfl, rfl⟩

end ChannelCreate
namespace ChannelCreate

theorem isM2MEvent_classify {e : Event} (h : isM2MEvent e = true) :
    isTaxCreate e = false ∧ isChannelCreatedEvent e = false := by
  cases e <;> simp_all [isM2MEvent, isTaxCreate, isChannelCreatedEvent]

/-- C1: `clean_expire_orders_after` raises a `ValidationError` (keyed on
`expire_orders_after`, with error code `INVALID`) if and only if its
argument is strictly negative; for `None` or `0` it returns `None`, and
for every strictly positive argument it returns that argument
unchanged. -/
theorem clean_expire_orders_after_spec (v : Option Int) :
    ((∃ e, clean_expire_orders_after v = .error e) ↔ ∃ n, v = some n ∧ n < 0) ∧
    (∀ e, clean_expire_orders_after v = .error e →
      e.field = "expire_orders_after" ∧ e.code = ChannelErrorCode.INVALID) ∧
    ((v = none ∨ v = some 0) → clean_expire_orders_after v = .ok none) ∧
    (∀ n, v = some n → 0 < n → clean_expire_orders_after v = .ok (some n)) := by
  rcases v with _ | n
  · refine ⟨?_, ?_, ?_, ?_⟩
    · constructor
      · rintro ⟨e, he⟩
        cases he
      · rintro ⟨n, hn, _⟩
        cases hn
    · intro e he
      cases he
    · intro _
      rfl
    · intro n hn
      cases hn
  · have hred : clean_expire_orders_after (some n) =
        if n = 0 then .ok none
        else if n < 0 then
          .error
            { field := "expire_orders_after"
              message := "Expiration time for orders cannot be lower than 0."
              code := ChannelErrorCode.INVALID }
        else .ok (some n) := rfl
    rw [hred]
    by_cases h0 : n = 0
    · subst h0
      rw [if_pos rfl]
      refine ⟨?_, ?_, ?_, ?_⟩
      · constructor
        · rintro ⟨e, he⟩
          cases he
        · rintro ⟨n2, hn, hneg⟩
          cases hn
          omega
      · intro e he
        cases he
      · intro _
        rfl
      · intro n2 hn hpos
        cases hn
        omega
    · rw [if_neg h0]
      by_cases hneg : n < 0
      · rw [if_pos hneg]
        refine ⟨?_, ?_, ?_, ?_⟩
        · exact ⟨fun _ => ⟨n, rfl, hneg⟩, fun _ => ⟨_, rfl⟩⟩
        · intro e he
          cases he
          exact ⟨rfl, rfl⟩
        · rintro (hc | hc) <;> cases hc
          omega
        · intro n2 hn hpos
          cases hn
          omega
      · rw [if_neg hneg]
        refine ⟨?_, ?_, ?_, ?_⟩
        · constructor
          · rintro ⟨e, he⟩
            cases he
          · rintro ⟨n2, hn, h2⟩
            cases hn
            omega
        · intro e he
          cases he
        · rintro (hc | hc) <;> cases hc
          omega
        · intro n2 hn _
          cases hn
          rfl

theorem clean_expire_orders_after_spec_witness :
    clean_expire_orders_after (some 7) = .ok (some 7) :=
  (clean_expire_orders_after_spec (some 7)).2.2.2 7 rfl (by norm_num)

/-- C3: if input validation raises a `ValidationError` (in particular for
a negative `expire_orders_after`), the mutation creates no channel record,
no `TaxConfiguration`, adds no shipping-zone or warehouse assignments, and
fires no `channel_created` event: the store is unchanged on error. -/
theorem validation_error_state_unchanged (inst : Nat) (data : Dict) (s : Store)
    (e : ValidationError) (h : clean_input data = .error e) :
    run_mutation inst data s = s ∧ mutation_result inst data s = none := by
  unfold run_mutation mutation_result perform_mutation
  rw [h]
  exact ⟨rfl, rfl⟩

theorem validation_error_state_unchanged_witness :
    run_mutation 1 sampleNegativeExpireInput {} = {} ∧
      mutation_result 1 sampleNegativeExpireInput {} = none :=
  validation_error_state_unchanged 1 sampleNegativeExpireInput {}
    { field := "expire_orders_after"
      message := "Expiration time for orders cannot be lower than 0."
      code := ChannelErrorCode.INVALID } rfl

/-- C6: a failure inside the transactional `_save_m2m` body leaves the
store exactly as it was: in particular no shipping-zone or warehouse
assignment persists. -/
theorem save_m2m_atomic_rollback (f : M2MOutcome) (inst : Nat)
    (cleaned_data : Dict) (s : Store) (e : DBError)
    (h : save_m2m_steps f inst cleaned_data s = .error e) :
    save_m2m_atomic f inst cleaned_data s = (s, some e) ∧
    (save_m2m_atomic f inst cleaned_data s).1.shippingZoneAssignments =
      s.shippingZoneAssignments ∧
    (save_m2m_atomic f inst cleaned_data s).1.warehouseAssignments =
      s.warehouseAssignments := by
  unfold save_m2m_atomic
  rw [h]
  exact ⟨rfl, rfl, rfl⟩

theorem save_m2m_atomic_rollback_witness :
    save_m2m_atomic ⟨true, true, false⟩ 1 sampleM2MInput {} =
      ({}, some .warehousesError) ∧
    (save_m2m_atomic ⟨true, true, false⟩ 1 sampleM2MInput {}).1.shippingZoneAssignments =
      ({} : Store).shippingZoneAssignments ∧
    (save_m2m_atomic ⟨true, true, false⟩ 1 sampleM2MInput {}).1.warehouseAssignments =
      ({} : Store).warehouseAssignments :=
  save_m2m_atomic_rollback ⟨true, true, false⟩ 1 sampleM2MInput {} .warehousesError rfl

/-- C9: `clean_input` only adds or overwrites the seven keys of
`writtenKeys`; every other key-value pair of the dictionary returned by
the superclass `clean_input` is present and unchanged in the result. -/
theorem clean_input_frame_spec (m ci : Dict) (k : String)
    (hk : k ∉ writtenKeys) (h : clean_input m = .ok ci) : ci k = m k :=
  clean_input_other h hk

theorem clean_input_frame_spec_witness :
    (dset sampleSlugInput "slug" (.vStr (Slugify.slugify "My  Channel!"))) "name" =
      sampleSlugInput "name" :=
  clean_input_frame_spec sampleSlugInput
    (dset sampleSlugInput "slug" (.vStr (Slugify.slugify "My  Channel!"))) "name"
    (by decide) rfl

end ChannelCreate
namespace ChannelCreate

/-- C2: every successful mutation creates exactly one `TaxConfiguration`,
whose channel is the newly created channel, and only after the channel
itself has been saved. -/
theorem tax_configuration_created_once (inst : Nat) (data : Dict)
    (s s2 : Store) (h : mutation_result inst data s = some s2) :
    s2.taxConfigurations = s.taxConfigurations ++ [inst] ∧
    ∃ pre post,
      s2.trace = s.trace ++ pre ++ .createTaxConfiguration inst :: post ∧
      .saveChannel inst ∈ pre ∧
      (∀ e ∈ pre, isTaxCreate e = false) ∧
      (∀ e ∈ post, isTaxCreate e = false) := by
  obtain ⟨c, hc, hs2⟩ := mutation_result_some h
  subst hs2
  obtain ⟨mid, hmid, hm2m⟩ := save_m2m_trace inst c (saveChannelStep inst s)
  have htax : (post_save_action inst
      (save_m2m inst c (saveChannelStep inst s))).taxConfigurations =
      (save_m2m inst c (saveChannelStep inst s)).taxConfigurations ++ [inst] := rfl
  have htr : (post_save_action inst
      (save_m2m inst c (saveChannelStep inst s))).trace =
      ((save_m2m inst c (saveChannelStep inst s)).trace ++
        [Event.createTaxConfiguration inst]) ++ [Event.channelCreated inst] := rfl
  constructor
  · rw [htax, save_m2m_tax]
    rfl
  · refine ⟨Event.saveChannel inst :: Event.baseM2M inst :: mid,
      [Event.channelCreated inst], ?_, List.mem_cons_self _ _, ?_, ?_⟩
    · rw [htr, hmid]
      show ((s.trace ++ [Event.saveChannel inst]) ++ Event.baseM2M inst :: mid ++
          [Event.createTaxConfiguration inst]) ++ [Event.channelCreated inst] = _
      simp
    · intro e he
      rcases List.mem_cons.mp he with rfl | he
      · rfl
      · rcases List.mem_cons.mp he with rfl | he
        · rfl
        · exact (isM2MEvent_classify (hm2m e he)).1
    · intro e he
      rcases List.mem_singleton.mp he with rfl
      rfl

theorem tax_configuration_created_once_witness :
    ({ channels := [1], taxConfigurations := [1],
       trace := [.saveChannel 1, .baseM2M 1, .createTaxConfiguration 1,
         .channelCreated 1] } : Store).taxConfigurations =
      ({} : Store).taxConfigurations ++ [1] ∧
    ∃ pre post,
      ({ channels := [1], taxConfigurations := [1],
         trace := [.saveChannel 1, .baseM2M 1, .createTaxConfiguration 1,
           .channelCreated 1] } : Store).trace =
        ({} : Store).trace ++ pre ++ .createTaxConfiguration 1 :: post ∧
      .saveChannel 1 ∈ pre ∧
      (∀ e ∈ pre, isTaxCreate e = false) ∧
      (∀ e ∈ post, isTaxCreate e = false) :=
  tax_configuration_created_once 1 emptyDict {}
    { channels := [1], taxConfigurations := [1],
      trace := [.saveChannel 1, .baseM2M 1, .createTaxConfiguration 1,
        .channelCreated 1] } rfl

/-- C4: every successful mutation fires the `channel_created` event
exactly once, with the newly created channel as argument, and only after
the channel has been saved and its `TaxConfiguration` created. -/
theorem channel_created_event_last (inst : Nat) (data : Dict)
    (s s2 : Store) (h : mutation_result inst data s = some s2) :
    ∃ pre,
      s2.trace = s.trace ++ pre ++ [.channelCreated inst] ∧
      .saveChannel inst ∈ pre ∧
      .createTaxConfiguration inst ∈ pre ∧
      (∀ e ∈ pre, isChannelCreatedEvent e = false) := by
  obtain ⟨c, hc, hs2⟩ := mutation_result_some h
  subst hs2
  obtain ⟨mid, hmid, hm2m⟩ := save_m2m_trace inst c (saveChannelStep inst s)
  have htr : (post_save_action inst
      (save_m2m inst c (saveChannelStep inst s))).trace =
      ((save_m2m inst c (saveChannelStep inst s)).trace ++
        [Event.createTaxConfiguration inst]) ++ [Event.channelCreated inst] := rfl
  refine ⟨Event.saveChannel inst :: Event.baseM2M inst ::
    (mid ++ [Event.createTaxConfiguration inst]), ?_, List.mem_cons_self _ _, ?_, ?_⟩
  · rw [htr, hmid]
    show ((s.trace ++ [Event.saveChannel inst]) ++ Event.baseM2M inst :: mid ++
        [Event.createTaxConfiguration inst]) ++ [Event.channelCreated inst] = _
    simp
  · refine List.mem_cons_of_mem _ (List.mem_cons_of_mem _ ?_)
    exact List.mem_append_right _ (List.mem_singleton.mpr rfl)
  · intro e he
    rcases List.mem_cons.mp he with rfl | he
    · rfl
    · rcases List.mem_cons.mp he with rfl | he
      · rfl
      · rcases List.mem_append.mp he with he | he
        · exact (isM2MEvent_classify (hm2m e he)).2
        · rcases List.mem_singleton.mp he with rfl
          rfl

theorem channel_created_event_last_witness :
    ∃ pre,
      ({ channels := [1], taxConfigurations := [1],
         trace := [.saveChannel 1, .baseM2M 1, .createTaxConfiguration 1,
           .channelCreated 1] } : Store).trace =
        ({} : Store).trace ++ pre ++ [.channelCreated 1] ∧
      .saveChannel 1 ∈ pre ∧
      .createTaxConfiguration 1 ∈ pre ∧
      (∀ e ∈ pre, isChannelCreatedEvent e = false) :=
  channel_created_event_last 1 emptyDict {}
    { channels := [1], taxConfigurations := [1],
      trace := [.saveChannel 1, .baseM2M 1, .createTaxConfiguration 1,
        .channelCreated 1] } rfl

end ChannelCreate
namespace ChannelCreate

/-- C5: after a successful mutation, the created channel's shipping-zone
(resp. warehouse) relation contains exactly the objects listed in
`add_shipping_zones` (resp. `add_warehouses`); an absent or empty list
adds nothing to that relation. -/
theorem m2m_assignments_spec (inst : Nat) (data : Dict) (s s2 : Store)
    (h : mutation_result inst data s = some s2)
    (hz : ∀ p ∈ s.shippingZoneAssignments, p.1 ≠ inst)
    (hw : ∀ p ∈ s.warehouseAssignments, p.1 ≠ inst) :
    (∀ z, (inst, z) ∈ s2.shippingZoneAssignments ↔
      z ∈ idsOf (dget data "add_shipping_zones")) ∧
    (idsOf (dget data "add_shipping_zones") = [] →
      s2.shippingZoneAssignments = s.shippingZoneAssignments) ∧
    (∀ w, (inst, w) ∈ s2.warehouseAssignments ↔
      w ∈ idsOf (dget data "add_warehouses")) ∧
    (idsOf (dget data "add_warehouses") = [] →
      s2.warehouseAssignments = s.warehouseAssignments) := by
  obtain ⟨c, hc, hs2⟩ := mutation_result_some h
  subst hs2
  have hzs : dget c "add_shipping_zones" = dget data "add_shipping_zones" := by
    unfold dget
    rw [clean_input_other hc (by decide)]
  have hws : dget c "add_warehouses" = dget data "add_warehouses" := by
    unfold dget
    rw [clean_input_other hc (by decide)]
  have hship : (post_save_action inst
      (save_m2m inst c (saveChannelStep inst s))).shippingZoneAssignments =
      (save_m2m inst c (saveChannelStep inst s)).shippingZoneAssignments := rfl
  have hware : (post_save_action inst
      (save_m2m inst c (saveChannelStep inst s))).warehouseAssignments =
      (save_m2m inst c (saveChannelStep inst s)).warehouseAssignments := rfl
  have hfs : (saveChannelStep inst s).shippingZoneAssignments =
      s.shippingZoneAssignments := rfl
  have hfw : (saveChannelStep inst s).warehouseAssignments =
      s.warehouseAssignments := rfl
  rw [hship, hware, save_m2m_shipping, save_m2m_warehouses, hfs, hfw, hzs, hws]
  refine ⟨?_, ?_, ?_, ?_⟩
  · intro z
    by_cases hemp : (idsOf (dget data "add_shipping_zones")).isEmpty = true
    · rw [if_pos hemp]
      rw [List.isEmpty_iff] at hemp
      rw [hemp]
      constructor
      · intro hp
        exact absurd rfl (hz _ hp)
      · intro hp
        cases hp
    · rw [if_neg hemp]
      rw [mem_m2mAdd]
      constructor
      · rintro (hp | ⟨_, hp⟩)
        · exact absurd rfl (hz _ hp)
        · exact hp
      · intro hp
        exact Or.inr ⟨rfl, hp⟩
  · intro hempty
    rw [if_pos (by rw [List.isEmpty_iff]; exact hempty)]
  · intro w
    by_cases hemp : (idsOf (dget data "add_warehouses")).isEmpty = true
    · rw [if_pos hemp]
      rw [List.isEmpty_iff] at hemp
      rw [hemp]
      constructor
      · intro hp
        exact absurd rfl (hw _ hp)
      · intro hp
        cases hp
    · rw [if_neg hemp]
      rw [mem_m2mAdd]
      constructor
      · rintro (hp | ⟨_, hp⟩)
        · exact absurd rfl (hw _ hp)
        · exact hp
      · intro hp
        exact Or.inr ⟨rfl, hp⟩
  · intro hempty
    rw [if_pos (by rw [List.isEmpty_iff]; exact hempty)]

theorem m2m_assignments_spec_witness :
    (∀ z, (1, z) ∈ sampleM2MResult.shippingZoneAssignments ↔
      z ∈ idsOf (dget sampleM2MInput "add_shipping_zones")) ∧
    (idsOf (dget sampleM2MInput "add_shipping_zones") = [] →
      sampleM2MResult.shippingZoneAssignments =
        ({} : Store).shippingZoneAssignments) ∧
    (∀ w, (1, w) ∈ sampleM2MResult.warehouseAssignments ↔
      w ∈ idsOf (dget sampleM2MInput "add_warehouses")) ∧
    (idsOf (dget sampleM2MInput "add_warehouses") = [] →
      sampleM2MResult.warehouseAssignments =
        ({} : Store).warehouseAssignments) :=
  m2m_assignments_spec 1 sampleM2MInput {} sampleM2MResult
    rfl (by intro p hp; cases hp) (by intro p hp; cases hp)

end ChannelCreate
namespace ChannelCreate

/-- C7: `clean_input` treats the order-settings booleans and enum fields
asymmetrically: the two booleans are copied whenever they are not `None`
(an explicit `False` is kept), whereas the two enum fields are copied only
when truthy — a falsy explicit value is silently dropped, leaving the
target key untouched. -/
theorem order_settings_asymmetry (m ci : Dict) (os : OrderSettings)
    (hos : dget m "order_settings" = .vOrder os)
    (h : clean_input m = .ok ci) :
    (∀ b, os.automatically_confirm_all_new_orders = some b →
      ci "automatically_confirm_all_new_orders" = some (.vBool b)) ∧
    (∀ b, os.automatically_fulfill_non_shippable_gift_card = some b →
      ci "automatically_fulfill_non_shippable_gift_card" = some (.vBool b)) ∧
    (∀ s1, os.mark_as_paid_strategy = some s1 → s1 ≠ "" →
      ci "order_mark_as_paid_strategy" = some (.vStr s1)) ∧
    (os.mark_as_paid_strategy = some "" →
      ci "order_mark_as_paid_strategy" = m "order_mark_as_paid_strategy") ∧
    (∀ s1, os.default_transaction_flow_strategy = some s1 → s1 ≠ "" →
      ci "default_transaction_flow_strategy" = some (.vStr s1)) ∧
    (os.default_transaction_flow_strategy = some "" →
      ci "default_transaction_flow_strategy" = m "default_transaction_flow_strategy") := by
  have hpre : dget (cleanStockSettings (cleanSlug m)) "order_settings" =
      PyVal.vOrder os := by
    unfold dget
    rw [cleanStockSettings_other (by decide), cleanSlug_other (by decide)]
    exact hos
  have hco : cleanOrderSettings (cleanStockSettings (cleanSlug m)) = .ok ci := h
  have hdec := cleanOrderSettings_vOrder hpre hco
  refine ⟨?_, ?_, ?_, ?_, ?_, ?_⟩
  · intro b hb
    have hemp : os.isEmpty = false := by
      simp [OrderSettings.isEmpty, hb]
    obtain ⟨mid, hmid, hci⟩ := hdec.2 hemp
    rw [hci, applyDefaultTransactionFlow_other (by decide),
      applyExpire_ok_other hmid (by decide), applyMarkAsPaid_other (by decide),
      applyFulfillGiftCard_other (by decide), applyConfirmAllNewOrders_self hb]
  · intro b hb
    have hemp : os.isEmpty = false := by
      simp [OrderSettings.isEmpty, hb]
    obtain ⟨mid, hmid, hci⟩ := hdec.2 hemp
    rw [hci, applyDefaultTransactionFlow_other (by decide),
      applyExpire_ok_other hmid (by decide), applyMarkAsPaid_other (by decide),
      applyFulfillGiftCard_self hb]
  · intro s1 hs1 hne
    have hemp : os.isEmpty = false := by
      simp [OrderSettings.isEmpty, hs1]
    obtain ⟨mid, hmid, hci⟩ := hdec.2 hemp
    rw [hci, applyDefaultTransactionFlow_other (by decide),
      applyExpire_ok_other hmid (by decide), applyMarkAsPaid_self hs1 hne]
  · intro hs1
    have hemp : os.isEmpty = false := by
      simp [OrderSettings.isEmpty, hs1]
    obtain ⟨mid, hmid, hci⟩ := hdec.2 hemp
    rw [hci, applyDefaultTransactionFlow_other (by decide),
      applyExpire_ok_other hmid (by decide), applyMarkAsPaid_dropped hs1,
      applyFulfillGiftCard_other (by decide),
      applyConfirmAllNewOrders_other (by decide),
      cleanStockSettings_other (by decide), cleanSlug_other (by decide)]
  · intro s1 hs1 hne
    have hemp : os.isEmpty = false := by
      simp [OrderSettings.isEmpty, hs1]
    obtain ⟨mid, hmid, hci⟩ := hdec.2 hemp
    rw [hci, applyDefaultTransactionFlow_self hs1 hne]
  · intro hs1
    have hemp : os.isEmpty = false := by
      simp [OrderSettings.isEmpty, hs1]
    obtain ⟨mid, hmid, hci⟩ := hdec.2 hemp
    rw [hci, applyDefaultTransactionFlow_dropped hs1,
      applyExpire_ok_other hmid (by decide), applyMarkAsPaid_other (by decide),
      applyFulfillGiftCard_other (by decide),
      applyConfirmAllNewOrders_other (by decide),
      cleanStockSettings_other (by decide), cleanSlug_other (by decide)]

theorem order_settings_asymmetry_witness :
    (dset sampleAsymmetryInput "automatically_confirm_all_new_orders"
        (.vBool false)) "automatically_confirm_all_new_orders" =
      some (.vBool false) ∧
    (dset sampleAsymmetryInput "automatically_confirm_all_new_orders"
        (.vBool false)) "order_mark_as_paid_strategy" =
      sampleAsymmetryInput "order_mark_as_paid_strategy" ∧
    (dset sampleAsymmetryInput "automatically_confirm_all_new_orders"
        (.vBool false)) "default_transaction_flow_strategy" =
      sampleAsymmetryInput "default_transaction_flow_strategy" :=
  have happ := order_settings_asymmetry sampleAsymmetryInput
    (dset sampleAsymmetryInput "automatically_confirm_all_new_orders" (.vBool false))
    { automatically_confirm_all_new_orders := some false
      mark_as_paid_strategy := some ""
      default_transaction_flow_strategy := some "" } rfl rfl
  ⟨happ.1 false rfl, happ.2.2.2.1 rfl, happ.2.2.2.2.2 rfl⟩

end ChannelCreate
namespace ChannelCreate

/-- C8: slug normalisation in `clean_input` is idempotent: a non-empty
slug string is stored as its slugified form, `slugify` is idempotent
(so re-cleaning an already slugified slug leaves it unchanged), and an
empty or absent slug is left untouched. -/
theorem slug_normalisation_idempotent (m ci : Dict)
    (h : clean_input m = .ok ci) :
    (∀ s1, dget m "slug" = .vStr s1 → s1 ≠ "" →
      ci "slug" = some (.vStr (Slugify.slugify s1))) ∧
    (∀ s1, Slugify.slugify (Slugify.slugify s1) = Slugify.slugify s1) ∧
    (dget m "slug" = .vStr "" → ci "slug" = m "slug") ∧
    (dget m "slug" = .vNone → ci "slug" = m "slug") := by
  have hord : cleanOrderSettings (cleanStockSettings (cleanSlug m)) = .ok ci := h
  have hkey : ci "slug" = cleanSlug m "slug" := by
    rw [cleanOrderSettings_other hord (by decide) (by decide) (by decide)
      (by decide) (by decide), cleanStockSettings_other (by decide)]
  refine ⟨?_, fun s1 => Slugify.slugify_idem s1, ?_, ?_⟩
  · intro s1 hs1 hne
    rw [hkey]
    unfold cleanSlug
    rw [hs1]
    rw [if_pos (by simp [truthy, hne])]
    exact dset_self _ _ _
  · intro hs1
    rw [hkey]
    unfold cleanSlug
    rw [hs1]
    rw [if_neg (by simp [truthy])]
  · intro hs1
    rw [hkey]
    unfold cleanSlug
    rw [hs1]
    rw [if_neg (by simp [truthy])]

theorem slug_normalisation_idempotent_witness :
    (dset sampleSlugInput "slug" (.vStr (Slugify.slugify "My  Channel!"))) "slug" =
      some (.vStr (Slugify.slugify "My  Channel!")) ∧
    Slugify.slugify (Slugify.slugify "My  Channel!") = Slugify.slugify "My  Channel!" :=
  have happ := slug_normalisation_idempotent sampleSlugInput
    (dset sampleSlugInput "slug" (.vStr (Slugify.slugify "My  Channel!"))) rfl
  ⟨happ.1 "My  Channel!" rfl (by decide), happ.2.1 "My  Channel!"⟩

end ChannelCreate
